import Mathlib

/-!
# ClearCanvas — verification of the selection → mask → composite pipeline

Shallow embedding of the ClearCanvas sources:

* `src/unnamed/part_001` (`geminiService`): `compositeImage` and
  `removeWatermark`, modelled over an exact-rational RGBA pixel model with
  standard canvas 2D compositing semantics (`source-over`, `destination-in`,
  drawing onto a freshly cleared canvas, `drawImage` with destination
  dimensions = stretch resampling).
* `src/components/Editor.tsx`: the selection state machine
  (`handleStart` / `handleMove` / `handleEnd` / `undoSelection` /
  `clearSelections`), the toolbar mode buttons, and `handleProcessClick`
  (validation + mask rasterization).

Coordinates are rationals (the TS sources use IEEE doubles produced by
display-to-image scaling; exact rationals keep all comparisons decidable).
Pixel channels are rationals in [0,255]; canvas blending is modelled with
exact arithmetic, straight (non-premultiplied) alpha.
-/

/-- An RGBA pixel. Channel values are rationals; the canvas nominal range is
0–255 for each channel. `a = 0` is fully transparent, `a = 255` opaque. -/
structure RGBA where
  r : ℚ
  g : ℚ
  b : ℚ
  a : ℚ
  deriving DecidableEq, Repr

/-- The content of a freshly created canvas: fully transparent black. -/
def clearPix : RGBA := ⟨0, 0, 0, 0⟩

/-- Porter–Duff `source-over` blending of a source pixel onto a destination
pixel, straight-alpha form with exact arithmetic (the default canvas 2D
`globalCompositeOperation`). -/
def srcOver (src dst : RGBA) : RGBA :=
  if src.a / 255 + dst.a / 255 * (1 - src.a / 255) = 0 then ⟨0, 0, 0, 0⟩
  else
    ⟨(src.r * (src.a / 255) + dst.r * (dst.a / 255) * (1 - src.a / 255)) /
       (src.a / 255 + dst.a / 255 * (1 - src.a / 255)),
     (src.g * (src.a / 255) + dst.g * (dst.a / 255) * (1 - src.a / 255)) /
       (src.a / 255 + dst.a / 255 * (1 - src.a / 255)),
     (src.b * (src.a / 255) + dst.b * (dst.a / 255) * (1 - src.a / 255)) /
       (src.a / 255 + dst.a / 255 * (1 - src.a / 255)),
     255 * (src.a / 255 + dst.a / 255 * (1 - src.a / 255))⟩

/-- Porter–Duff `destination-in`: keep the destination's content only where
the source is opaque. The destination's color is retained; its alpha is
scaled by the source's alpha. -/
def dstIn (dst src : RGBA) : RGBA :=
  ⟨dst.r, dst.g, dst.b, dst.a * src.a / 255⟩

/-- A raster image: pixel dimensions plus a pixel lookup function.
`pix x y` is the pixel at column `x`, row `y`. -/
structure Image where
  width : Nat
  height : Nat
  pix : Nat → Nat → RGBA

/-- Semantics of `drawImage(img, 0, 0, w, h)` with destination dimensions different from
the source's stretches the source to the destination rectangle: the output
pixel at `(x, y)` samples the source at the proportionally scaled position
(no cropping). -/
def resample (img : Image) (w h : Nat) : Image :=
  ⟨w, h, fun x y => img.pix (x * img.width / w) (y * img.height / h)⟩

/-- The pure core of `compositeImage` (src/unnamed/part_001, lines 33–81),
per output pixel, after all three images decoded successfully:

1. the main canvas is created at the original's dimensions and the original
   is drawn onto it (source-over onto a cleared canvas);
2. the mask canvas receives the result (replacement) image stretched to the
   original's dimensions;
3. the alpha-mask canvas receives the mask stretched to the original's
   dimensions, and each pixel's alpha is overwritten with its green channel
   (brightness proxy: white → opaque, black → transparent);
4. `destination-in` applies the alpha mask to the result layer;
5. the masked result layer is drawn source-over onto the main canvas. -/
def compositePure (original mask result : Image) : Image :=
  let w := original.width
  let h := original.height
  ⟨w, h, fun x y =>
    let base := srcOver (original.pix x y) clearPix
    let resultLayer := srcOver ((resample result w h).pix x y) clearPix
    let maskPix := srcOver ((resample mask w h).pix x y) clearPix
    let alphaMask : RGBA := ⟨maskPix.r, maskPix.g, maskPix.b, maskPix.g⟩
    let maskedLayer := dstIn resultLayer alphaMask
    srcOver maskedLayer base⟩

/-- The mask-derived alpha at an output pixel: the green channel of the mask
after it has been stretched to the target dimensions and drawn onto the
cleared alpha-mask canvas (`data[i+3] = data[i+1]` in the source). -/
def maskAlpha (mask : Image) (w h : Nat) (x y : Nat) : ℚ :=
  (srcOver ((resample mask w h).pix x y) clearPix).g

/-- Model of `compositeImage` (src/unnamed/part_001, lines 17–88) including its
failure handling: decoding of the three base64 inputs, canvas-context
acquisition, and final encoding are fallible; any failure is caught and the
raw result (replacement) base64 string is returned unchanged as fallback.
`decode` stands for image loading/decoding, `encode` for
`canvas.toDataURL`, `ctxOk` for the three `getContext('2d')` calls
succeeding. -/
def compositeImage (decode : String → Option Image) (encode : Image → Option String)
    (ctxOk : Bool) (originalB64 maskB64 resultB64 : String) : String :=
  match decode originalB64, decode maskB64, decode resultB64 with
  | some o, some m, some r =>
    if ctxOk then
      match encode (compositePure o m r) with
      | some s => s
      | none => resultB64
    else resultB64
  | _, _, _ => resultB64

/-! ## Helper lemmas about blending -/

/-- Drawing a pixel source-over onto a cleared canvas reproduces the pixel
when it has nonzero alpha, and yields transparent black otherwise. -/
theorem srcOver_clear (p : RGBA) :
    srcOver p clearPix = if p.a = 0 then ⟨0, 0, 0, 0⟩ else p := by
  obtain ⟨r, g, b, a⟩ := p
  by_cases ha : a = 0
  · subst ha
    simp [srcOver, clearPix]
  · have hdiv : a / 255 ≠ 0 := div_ne_zero ha (by norm_num)
    simp only [srcOver, clearPix, if_neg ha]
    rw [if_neg (by simpa using hdiv)]
    simp only [RGBA.mk.injEq]
    refine ⟨?_, ?_, ?_, ?_⟩ <;> field_simp

/-- Source-over with a fully opaque source returns the source pixel. -/
theorem srcOver_opaque (src dst : RGBA) (h : src.a = 255) :
    srcOver src dst = src := by
  obtain ⟨r, g, b, a⟩ := src
  simp only at h
  subst h
  simp only [srcOver]
  norm_num

/-- Source-over with a fully transparent source returns the destination
pixel, provided the destination has nonzero alpha. -/
theorem srcOver_transparent (src dst : RGBA) (hs : src.a = 0) (hd : dst.a ≠ 0) :
    srcOver src dst = dst := by
  obtain ⟨sr, sg, sb, sa⟩ := src
  obtain ⟨dr, dg, db, da⟩ := dst
  simp only at hs hd
  subst hs
  have h255 : (255 : ℚ) ≠ 0 := by norm_num
  have hdiv : da / 255 ≠ 0 := div_ne_zero hd h255
  simp only [srcOver, RGBA.mk.injEq]
  rw [if_neg (by simpa using hdiv)]
  field_simp

/-! ## Editor data model (src/types.ts and src/components/Editor.tsx) -/

/-- Record `Point {x, y}` (src/types.ts): coordinates in image pixel space. -/
structure Point where
  x : ℚ
  y : ℚ
  deriving DecidableEq, Repr

/-- Record `Rect {x, y, width, height}` (src/types.ts): an axis-aligned rectangle
in image pixel space. -/
structure Rect where
  x : ℚ
  y : ℚ
  width : ℚ
  height : ℚ
  deriving DecidableEq, Repr

/-- Union `ProcessMode` (src/types.ts): `'auto' | 'manual' | 'tiled'`. -/
inductive ProcessMode where
  | auto
  | manual
  | tiled
  deriving DecidableEq, Repr

/-- The selection-relevant React state of `Editor`
(src/components/Editor.tsx): committed rectangles, the in-progress
rectangle, the drawing flag, the drag anchor, and the active mode. -/
structure EditorState where
  selections : List Rect
  currentSelection : Option Rect
  isDrawing : Bool
  startPoint : Option Point
  mode : ProcessMode
  deriving DecidableEq, Repr

/-- Initial `Editor` state (the `useState` initialisers). -/
def initState : EditorState :=
  ⟨[], none, false, none, ProcessMode.auto⟩

/-- Model of `handleStart` (Editor.tsx lines 115–123): ignored unless in manual mode
and not processing; otherwise begins a drag with a zero-size in-progress
rectangle anchored at the pointer's image-space position. -/
def handleStart (s : EditorState) (isProcessing : Bool) (p : Point) : EditorState :=
  if s.mode ≠ ProcessMode.manual ∨ isProcessing then s
  else { s with
         isDrawing := true
         startPoint := some p
         currentSelection := some ⟨p.x, p.y, 0, 0⟩ }

/-- Model of `handleMove` (Editor.tsx lines 125–135): while a drag is active in
manual mode, recompute the in-progress rectangle as the axis-aligned
bounding box of the anchor and the current point. -/
def handleMove (s : EditorState) (p : Point) : EditorState :=
  match s.startPoint with
  | none => s
  | some sp =>
    if ¬s.isDrawing ∨ s.mode ≠ ProcessMode.manual then s
    else { s with
           currentSelection :=
             some ⟨min sp.x p.x, min sp.y p.y, |p.x - sp.x|, |p.y - sp.y|⟩ }

/-- Model of `handleEnd` (Editor.tsx lines 137–144): commit the in-progress rectangle
when a drag was active and it exceeds 5 pixels in both dimensions; clear the
drag state in every case. -/
def handleEnd (s : EditorState) : EditorState :=
  let sels :=
    match s.currentSelection with
    | some r =>
      if s.isDrawing ∧ 5 < r.width ∧ 5 < r.height then s.selections ++ [r]
      else s.selections
    | none => s.selections
  { s with
    selections := sels
    isDrawing := false
    startPoint := none
    currentSelection := none }

/-- Model of `undoSelection` (Editor.tsx lines 146–148): `selections.slice(0, -1)`,
i.e. drop the last committed rectangle. -/
def undoSelection (s : EditorState) : EditorState :=
  { s with selections := s.selections.dropLast }

/-- Model of `clearSelections` (Editor.tsx lines 150–152): empty the committed list. -/
def clearSelections (s : EditorState) : EditorState :=
  { s with selections := [] }

/-- The auto toolbar button (Editor.tsx): `setMode('auto'); setSelections([])`. -/
def clickAuto (s : EditorState) : EditorState :=
  { s with mode := ProcessMode.auto, selections := [] }

/-- The tiled toolbar button (Editor.tsx): `setMode('tiled'); setSelections([])`. -/
def clickTiled (s : EditorState) : EditorState :=
  { s with mode := ProcessMode.tiled, selections := [] }

/-- The manual toolbar button (Editor.tsx): `setMode('manual')` only — the
committed selections are left as they are. -/
def clickManual (s : EditorState) : EditorState :=
  { s with mode := ProcessMode.manual }

/-! ## Mask rasterization and submission (Editor.tsx `handleProcessClick`) -/

/-- Whether a pixel with integer coordinates `(x, y)` lies in the extent of
`fillRect(r.x, r.y, r.width, r.height)`. -/
def coveredBy (r : Rect) (x y : Nat) : Prop :=
  r.x ≤ (x : ℚ) ∧ (x : ℚ) < r.x + r.width ∧ r.y ≤ (y : ℚ) ∧ (y : ℚ) < r.y + r.height

instance (r : Rect) (x y : Nat) : Decidable (coveredBy r x y) := by
  unfold coveredBy; infer_instance

/-- Opaque black: the mask's "preserve" value. -/
def blackPix : RGBA := ⟨0, 0, 0, 255⟩

/-- Opaque white: the mask's "replace" value. -/
def whitePix : RGBA := ⟨255, 255, 255, 255⟩

/-- Semantics of `ctx.fillRect` over a pixel buffer: pixels in the rectangle's extent take
the fill color, all others keep their previous value. -/
def fillRect (buf : Nat → Nat → RGBA) (r : Rect) (c : RGBA) : Nat → Nat → RGBA :=
  fun x y => if coveredBy r x y then c else buf x y

/-- The mask construction inside `handleProcessClick` (Editor.tsx lines
163–178): a canvas of the image's dimensions, filled black, then every
committed rectangle filled white in list order. -/
def rasterize (rects : List Rect) (w h : Nat) : Image :=
  ⟨w, h, rects.foldl (fun buf r => fillRect buf r whitePix) (fun _ _ => blackPix)⟩

/-- The outcome of a click on the process button. -/
inductive ProcessAction where
  | validationAlert
  | noCtx
  | submit (mask : Option Image) (mode : ProcessMode)

/-- Model of `handleProcessClick` (Editor.tsx lines 155–185). In manual mode with no
committed rectangle: alert and return (no submission). In manual mode with
committed rectangles and a canvas context: rasterize the mask and submit it
with mode `manual`. Otherwise (auto/tiled): submit with no mask. The editor
state is not modified in any branch. -/
def handleProcessClick (s : EditorState) (imgW imgH : Nat) (ctxOk : Bool) :
    ProcessAction × EditorState :=
  if s.mode = ProcessMode.manual then
    if s.selections = [] then (ProcessAction.validationAlert, s)
    else if ctxOk then
      (ProcessAction.submit (some (rasterize s.selections imgW imgH)) ProcessMode.manual, s)
    else (ProcessAction.noCtx, s)
  else (ProcessAction.submit none s.mode, s)

/-! ## Service layer (src/unnamed/part_001 `removeWatermark`) -/

/-- The three instruction variants sent to the external service
(src/unnamed/part_001, lines 116–135). -/
inductive PromptKind where
  | tiledPrompt
  | manualPrompt
  | autoPrompt
  deriving DecidableEq, Repr

/-- The request-building branch of `removeWatermark`: whether a mask part is
pushed onto `parts`, and which prompt is used. The tiled branch is selected
before the mask is examined; only the middle branch attaches the mask. -/
def buildParts (maskBase64 : Option String) (mode : ProcessMode) :
    Bool × PromptKind :=
  if mode = ProcessMode.tiled then (false, PromptKind.tiledPrompt)
  else
    match maskBase64 with
    | some _ => (true, PromptKind.manualPrompt)
    | none => (false, PromptKind.autoPrompt)

/-- Model of `removeWatermark` (src/unnamed/part_001, lines 97–177). `service`
abstracts the external generateContent call: given whether a mask part was
attached and which prompt variant was used, it returns the first inline
image of the response, or none. On a response image, the result is
composited against the original if and only if a mask was supplied and the
mode is manual; with no usable response image the call throws. -/
def removeWatermark (service : Bool → PromptKind → Option String)
    (decode : String → Option Image) (encode : Image → Option String) (ctxOk : Bool)
    (imageBase64 : String) (maskBase64 : Option String)
    (mode : ProcessMode) : Except String String :=
  let req := buildParts maskBase64 mode
  match service req.1 req.2 with
  | some resultB64 =>
    match maskBase64 with
    | some mB64 =>
      if mode = ProcessMode.manual then
        Except.ok (compositeImage decode encode ctxOk imageBase64 mB64 resultB64)
      else Except.ok resultB64
    | none => Except.ok resultB64
  | none => Except.error "No image data received from AI."

/-! ## Claims about the selection state machine -/

/-- C5: when a drag ends (drawing flag set, an in-progress rectangle
present, manual mode), the in-progress rectangle is appended to the
committed list exactly when both its width and height exceed 5, and is
discarded otherwise; in both cases the drawing flag, anchor point and
in-progress rectangle are cleared. -/
theorem handleEnd_commits_iff_large (s : EditorState) (r : Rect)
    (_hm : s.mode = ProcessMode.manual) (hd : s.isDrawing = true)
    (hc : s.currentSelection = some r) :
    ((handleEnd s).selections =
      if 5 < r.width ∧ 5 < r.height then s.selections ++ [r] else s.selections) ∧
    (handleEnd s).isDrawing = false ∧
    (handleEnd s).startPoint = none ∧
    (handleEnd s).currentSelection = none := by
  refine ⟨?_, rfl, rfl, rfl⟩
  simp only [handleEnd, hc, hd]
  by_cases hwh : 5 < r.width ∧ 5 < r.height
  · simp [hwh]
  · simp [hwh]

/-- Witness for `handleEnd_commits_iff_large` at a concrete drag end. -/
theorem handleEnd_commits_iff_large_witness :
    ((handleEnd ⟨[], some ⟨0, 0, 10, 10⟩, true, some ⟨0, 0⟩, ProcessMode.manual⟩).selections =
      if 5 < (⟨0, 0, 10, 10⟩ : Rect).width ∧ 5 < (⟨0, 0, 10, 10⟩ : Rect).height then
        [] ++ [⟨0, 0, 10, 10⟩] else []) ∧
    (handleEnd ⟨[], some ⟨0, 0, 10, 10⟩, true, some ⟨0, 0⟩, ProcessMode.manual⟩).isDrawing
      = false ∧
    (handleEnd ⟨[], some ⟨0, 0, 10, 10⟩, true, some ⟨0, 0⟩, ProcessMode.manual⟩).startPoint
      = none ∧
    (handleEnd ⟨[], some ⟨0, 0, 10, 10⟩, true, some ⟨0, 0⟩, ProcessMode.manual⟩).currentSelection
      = none :=
  handleEnd_commits_iff_large _ _ rfl rfl rfl

/-- C6 counterexample: selecting the manual mode does not clear the
committed rectangles — on a state that already holds a committed rectangle,
clicking the manual button leaves the list non-empty. -/
theorem clickManual_keeps_selections :
    (clickManual ⟨[⟨0, 0, 10, 10⟩], none, false, none, ProcessMode.manual⟩).selections ≠ [] := by
  decide

/-- C6 (amended): the auto and tiled buttons clear all committed
rectangles; the manual button changes only the mode and leaves the
committed list untouched; consequently switching away from manual (to auto
or tiled) and back to manual yields an empty committed list. -/
theorem modeButtons_selections (s : EditorState) :
    (clickAuto s).selections = [] ∧
    (clickTiled s).selections = [] ∧
    (clickManual s).selections = s.selections ∧
    (clickManual (clickAuto s)).selections = [] ∧
    (clickManual (clickTiled s)).selections = [] :=
  ⟨rfl, rfl, rfl, rfl, rfl⟩

/-- C8: undo removes exactly the most recently appended rectangle (the
prefix is unchanged and the count drops by one), undo on an empty committed
list changes nothing, and clear always empties the committed list. -/
theorem undo_clear_spec :
    (∀ (s : EditorState) (l : List Rect) (r : Rect),
      s.selections = l ++ [r] → (undoSelection s).selections = l) ∧
    (∀ s : EditorState,
      (undoSelection s).selections.length = s.selections.length - 1) ∧
    (∀ s : EditorState, s.selections = [] → undoSelection s = s) ∧
    (∀ s : EditorState, (clearSelections s).selections = []) := by
  refine ⟨?_, ?_, ?_, ?_⟩
  · intro s l r h
    simp [undoSelection, h]
  · intro s
    simp [undoSelection, List.length_dropLast]
  · intro s h
    obtain ⟨sel, cur, d, sp, m⟩ := s
    simp only at h
    simp [undoSelection, h]
  · intro s
    rfl

/-- Witness for `undo_clear_spec`: undoing after two commits leaves exactly
the first commit, and undo on the empty list is the identity. -/
theorem undo_clear_spec_witness :
    (undoSelection
        ⟨[⟨0, 0, 6, 6⟩, ⟨1, 1, 7, 7⟩], none, false, none, ProcessMode.manual⟩).selections
      = [⟨0, 0, 6, 6⟩] ∧
    undoSelection ⟨[], none, false, none, ProcessMode.auto⟩
      = ⟨[], none, false, none, ProcessMode.auto⟩ :=
  ⟨undo_clear_spec.1 _ [⟨0, 0, 6, 6⟩] ⟨1, 1, 7, 7⟩ rfl,
   undo_clear_spec.2.2.1 _ rfl⟩

/-- C2: in manual mode with an empty committed list, clicking process
raises the validation alert, performs no submission, and leaves the editor
state unchanged (for any context availability); in manual mode with a
non-empty committed list (and an available canvas context) the rasterized
mask is submitted with mode manual; in any non-manual mode the submission
proceeds with no mask regardless of the committed list. -/
theorem handleProcessClick_spec (s : EditorState) (w h : Nat) (ctxOk : Bool) :
    (s.mode = ProcessMode.manual → s.selections = [] →
      handleProcessClick s w h ctxOk = (ProcessAction.validationAlert, s)) ∧
    (s.mode = ProcessMode.manual → s.selections ≠ [] → ctxOk = true →
      handleProcessClick s w h ctxOk =
        (ProcessAction.submit (some (rasterize s.selections w h)) ProcessMode.manual, s)) ∧
    (s.mode ≠ ProcessMode.manual →
      handleProcessClick s w h ctxOk = (ProcessAction.submit none s.mode, s)) := by
  refine ⟨?_, ?_, ?_⟩
  · intro hm he
    simp [handleProcessClick, hm, he]
  · intro hm hne hctx
    simp [handleProcessClick, hm, hne, hctx]
  · intro hm
    simp [handleProcessClick, hm]

/-- Witness for `handleProcessClick_spec`: an empty manual-mode submission
alerts without submitting and keeps the state. -/
theorem handleProcessClick_spec_witness :
    handleProcessClick ⟨[], none, false, none, ProcessMode.manual⟩ 10 10 true =
      (ProcessAction.validationAlert, ⟨[], none, false, none, ProcessMode.manual⟩) :=
  (handleProcessClick_spec ⟨[], none, false, none, ProcessMode.manual⟩ 10 10 true).1 rfl rfl

/-- C7: mask rasterization fills black then fills the committed rectangles
white, so the empty list yields the all-black (all-preserve) mask, and a
duplicated rectangle yields exactly the same mask as the rectangle listed
once (white fill is idempotent). -/
theorem rasterize_spec :
    (∀ (w h x y : Nat), (rasterize [] w h).pix x y = blackPix) ∧
    (∀ (R : Rect) (w h : Nat), rasterize [R, R] w h = rasterize [R] w h) := by
  constructor
  · intro w h x y
    rfl
  · intro R w h
    simp only [rasterize, List.foldl_cons, List.foldl_nil, Image.mk.injEq,
      true_and]
    funext x y
    by_cases hc : coveredBy R x y
    · simp [fillRect, hc]
    · simp [fillRect, hc]

/-! ## Claim C9: nonnegative rectangle dimensions -/

/-- A rectangle with nonnegative width and height. -/
def rectNonneg (r : Rect) : Prop := 0 ≤ r.width ∧ 0 ≤ r.height

instance (r : Rect) : Decidable (rectNonneg r) := by
  unfold rectNonneg; infer_instance

/-- The in-progress rectangle, when present, has nonnegative dimensions. -/
def currentNonneg : Option Rect → Prop
  | some r => rectNonneg r
  | none => True

instance (o : Option Rect) : Decidable (currentNonneg o) := by
  cases o with
  | none => exact isTrue trivial
  | some r => exact (inferInstance : Decidable (rectNonneg r))

/-- Every rectangle held by the selection state — committed or in
progress — has nonnegative width and height. -/
def selectionInv (s : EditorState) : Prop :=
  (∀ r ∈ s.selections, rectNonneg r) ∧ currentNonneg s.currentSelection

instance (s : EditorState) : Decidable (selectionInv s) := by
  unfold selectionInv; infer_instance

/-- C9: the nonnegativity invariant holds initially and is preserved by
every selection operation: drag start installs a zero-size rectangle, drag
move recomputes the rectangle with `min`/absolute-value arithmetic, drag
end only commits the (invariant-satisfying) in-progress rectangle, and the
remaining operations only remove rectangles or change the mode. -/
theorem selectionInv_preserved :
    selectionInv initState ∧
    (∀ (s : EditorState) (b : Bool) (p : Point),
      selectionInv s → selectionInv (handleStart s b p)) ∧
    (∀ (s : EditorState) (p : Point),
      selectionInv s → selectionInv (handleMove s p)) ∧
    (∀ s : EditorState, selectionInv s → selectionInv (handleEnd s)) ∧
    (∀ s : EditorState, selectionInv s → selectionInv (undoSelection s)) ∧
    (∀ s : EditorState, selectionInv s → selectionInv (clearSelections s)) ∧
    (∀ s : EditorState, selectionInv s → selectionInv (clickAuto s)) ∧
    (∀ s : EditorState, selectionInv s → selectionInv (clickTiled s)) ∧
    (∀ s : EditorState, selectionInv s → selectionInv (clickManual s)) := by
  refine ⟨⟨?_, trivial⟩, ?_, ?_, ?_, ?_, ?_, ?_, ?_, ?_⟩
  · intro r hr
    simp [initState] at hr
  · intro s b p hinv
    obtain ⟨sel, cur, d, sp, m⟩ := s
    obtain ⟨h1, h2⟩ := hinv
    unfold handleStart
    split
    · exact ⟨h1, h2⟩
    · exact ⟨h1, le_refl 0, le_refl 0⟩
  · intro s p hinv
    obtain ⟨sel, cur, d, sp, m⟩ := s
    obtain ⟨h1, h2⟩ := hinv
    cases sp with
    | none => exact ⟨h1, h2⟩
    | some spv =>
      simp only [handleMove]
      split
      · exact ⟨h1, h2⟩
      · exact ⟨h1, abs_nonneg _, abs_nonneg _⟩
  · intro s hinv
    obtain ⟨sel, cur, d, sp, m⟩ := s
    obtain ⟨h1, h2⟩ := hinv
    cases cur with
    | none => exact ⟨h1, trivial⟩
    | some r =>
      have hr : rectNonneg r := h2
      simp only [handleEnd]
      split
      · refine ⟨?_, trivial⟩
        intro q hq
        rcases List.mem_append.mp hq with hql | hqr
        · exact h1 q hql
        · rw [List.mem_singleton.mp hqr]
          exact hr
      · exact ⟨h1, trivial⟩
  · intro s hinv
    exact ⟨fun r hr => hinv.1 r ((List.dropLast_sublist s.selections).subset hr), hinv.2⟩
  · intro s hinv
    obtain ⟨sel, cur, d, sp, m⟩ := s
    refine ⟨?_, hinv.2⟩
    intro r hr
    simp [clearSelections] at hr
  · intro s hinv
    obtain ⟨sel, cur, d, sp, m⟩ := s
    refine ⟨?_, hinv.2⟩
    intro r hr
    simp [clickAuto] at hr
  · intro s hinv
    obtain ⟨sel, cur, d, sp, m⟩ := s
    refine ⟨?_, hinv.2⟩
    intro r hr
    simp [clickTiled] at hr
  · intro s hinv
    exact ⟨hinv.1, hinv.2⟩

/-- Witness for `selectionInv_preserved`: a concrete drag move from anchor
(5, 6) to (3, 4) yields a rectangle with nonnegative dimensions. -/
theorem selectionInv_preserved_witness :
    selectionInv
      (handleMove ⟨[], some ⟨5, 6, 0, 0⟩, true, some ⟨5, 6⟩, ProcessMode.manual⟩ ⟨3, 4⟩) :=
  selectionInv_preserved.2.2.1 ⟨[], some ⟨5, 6, 0, 0⟩, true, some ⟨5, 6⟩, ProcessMode.manual⟩
    ⟨3, 4⟩ (by decide)

/-! ## Claims about the service layer -/

/-- C3: if loading/decoding of any of the three images fails, or the canvas
context is unavailable, or encoding the composited canvas fails, then
`compositeImage` returns the uncomposited replacement base64 string
unchanged. -/
theorem compositeImage_fallback (decode : String → Option Image)
    (encode : Image → Option String) (ctxOk : Bool) (oB mB rB : String)
    (h : decode oB = none ∨ decode mB = none ∨ decode rB = none ∨ ctxOk = false ∨
      (∀ oi mi ri, decode oB = some oi → decode mB = some mi → decode rB = some ri →
        encode (compositePure oi mi ri) = none)) :
    compositeImage decode encode ctxOk oB mB rB = rB := by
  cases hdo : decode oB with
  | none => simp [compositeImage, hdo]
  | some oi =>
    cases hdm : decode mB with
    | none => simp [compositeImage, hdo, hdm]
    | some mi =>
      cases hdr : decode rB with
      | none => simp [compositeImage, hdo, hdm, hdr]
      | some ri =>
        rcases h with h | h | h | h | h
        · rw [hdo] at h; cases h
        · rw [hdm] at h; cases h
        · rw [hdr] at h; cases h
        · simp [compositeImage, hdo, hdm, hdr, h]
        · have henc := h oi mi ri hdo hdm hdr
          cases ctxOk with
          | false => simp [compositeImage, hdo, hdm, hdr]
          | true => simp [compositeImage, hdo, hdm, hdr, henc]

/-- Witness for `compositeImage_fallback`: with a decoder that fails on
every input the replacement string comes back unchanged. -/
theorem compositeImage_fallback_witness :
    compositeImage (fun _ => none) (fun _ => none) true "orig" "mask" "res" = "res" :=
  compositeImage_fallback (fun _ => none) (fun _ => none) true "orig" "mask" "res"
    (Or.inl rfl)

/-- C10: with mode tiled, the request sent to the external service never
contains a mask part (the tiled branch is chosen before the mask is
examined), and the service's raw result is returned without compositing,
even when a mask argument was supplied. -/
theorem removeWatermark_tiled (service : Bool → PromptKind → Option String)
    (decode : String → Option Image) (encode : Image → Option String) (ctxOk : Bool)
    (imageB64 : String) (maskB64 : Option String) (res : String)
    (hs : service false PromptKind.tiledPrompt = some res) :
    (buildParts maskB64 ProcessMode.tiled).1 = false ∧
    removeWatermark service decode encode ctxOk imageB64 maskB64 ProcessMode.tiled =
      Except.ok res := by
  constructor
  · rfl
  · cases maskB64 with
    | none => simp [removeWatermark, buildParts, hs]
    | some mB => simp [removeWatermark, buildParts, hs]

/-- Witness for `removeWatermark_tiled`: a tiled call with a supplied mask
still produces the raw service result. -/
theorem removeWatermark_tiled_witness :
    (buildParts (some "mask") ProcessMode.tiled).1 = false ∧
    removeWatermark (fun _ _ => some "res") (fun _ => none) (fun _ => none) true
      "img" (some "mask") ProcessMode.tiled = Except.ok "res" :=
  removeWatermark_tiled (fun _ _ => some "res") (fun _ => none) (fun _ => none) true
    "img" (some "mask") "res" rfl

/-! ## Claims about the compositor -/

/-- C4: the composited output always has the original's pixel dimensions,
and both the mask and the replacement are first brought to the original's
dimensions by stretch resampling — the output pixel at `(x, y)` samples the
source at the proportionally scaled coordinates, not at the unscaled
(cropping) ones. -/
theorem compositePure_dims (o m r : Image) :
    (compositePure o m r).width = o.width ∧
    (compositePure o m r).height = o.height ∧
    (resample m o.width o.height).width = o.width ∧
    (resample m o.width o.height).height = o.height ∧
    (resample r o.width o.height).width = o.width ∧
    (resample r o.width o.height).height = o.height ∧
    (∀ x y, (resample r o.width o.height).pix x y =
      r.pix (x * r.width / o.width) (y * r.height / o.height)) ∧
    (∀ x y, (resample m o.width o.height).pix x y =
      m.pix (x * m.width / o.width) (y * m.height / o.height)) :=
  ⟨rfl, rfl, rfl, rfl, rfl, rfl, fun _ _ => rfl, fun _ _ => rfl⟩

/-- Unfolding of the compositor at one output pixel: the replacement is
resampled and drawn on a cleared layer, the resampled mask's green channel
becomes the alpha of the alpha-mask layer, `destination-in` restricts the
replacement layer to that alpha, and the result is drawn source-over onto
the original. -/
theorem compositePure_pix (o m r : Image) (x y : Nat) :
    (compositePure o m r).pix x y =
      srcOver
        (dstIn (srcOver ((resample r o.width o.height).pix x y) clearPix)
          ⟨(srcOver ((resample m o.width o.height).pix x y) clearPix).r,
           (srcOver ((resample m o.width o.height).pix x y) clearPix).g,
           (srcOver ((resample m o.width o.height).pix x y) clearPix).b,
           (srcOver ((resample m o.width o.height).pix x y) clearPix).g⟩)
        (srcOver (o.pix x y) clearPix) := rfl

/-- C1 (amended): where the mask-derived alpha is exactly 0 the output
pixel equals the original's pixel, provided the original's pixel is not
fully transparent; where the mask-derived alpha is exactly 255 the output
pixel equals the resampled replacement's pixel, provided that pixel is
fully opaque. -/
theorem compositePure_exact (o m r : Image) (x y : Nat) :
    (maskAlpha m o.width o.height x y = 0 → (o.pix x y).a ≠ 0 →
      (compositePure o m r).pix x y = o.pix x y) ∧
    (maskAlpha m o.width o.height x y = 255 →
      ((resample r o.width o.height).pix x y).a = 255 →
      (compositePure o m r).pix x y = (resample r o.width o.height).pix x y) := by
  constructor
  · intro hma hoa
    rw [compositePure_pix]
    rw [srcOver_clear (o.pix x y), if_neg hoa]
    apply srcOver_transparent
    · unfold maskAlpha at hma
      simp [dstIn, hma]
    · exact hoa
  · intro hma hra
    rw [compositePure_pix]
    rw [srcOver_clear ((resample r o.width o.height).pix x y), if_neg (by rw [hra]; norm_num)]
    unfold maskAlpha at hma
    have hml : dstIn ((resample r o.width o.height).pix x y)
        ⟨(srcOver ((resample m o.width o.height).pix x y) clearPix).r,
         (srcOver ((resample m o.width o.height).pix x y) clearPix).g,
         (srcOver ((resample m o.width o.height).pix x y) clearPix).b,
         (srcOver ((resample m o.width o.height).pix x y) clearPix).g⟩ =
        (resample r o.width o.height).pix x y := by
      unfold dstIn
      dsimp only
      rw [hma, hra]
      norm_num
      rw [← hra]
    rw [hml]
    exact srcOver_opaque _ _ hra

/-- Witness for `compositePure_exact`: a 1×1 opaque original under an
all-black mask survives compositing unchanged. -/
theorem compositePure_exact_witness :
    (compositePure ⟨1, 1, fun _ _ => ⟨10, 20, 30, 255⟩⟩
        ⟨1, 1, fun _ _ => ⟨0, 0, 0, 255⟩⟩
        ⟨1, 1, fun _ _ => ⟨1, 2, 3, 255⟩⟩).pix 0 0 =
      (⟨1, 1, fun _ _ => ⟨10, 20, 30, 255⟩⟩ : Image).pix 0 0 :=
  (compositePure_exact ⟨1, 1, fun _ _ => ⟨10, 20, 30, 255⟩⟩
      ⟨1, 1, fun _ _ => ⟨0, 0, 0, 255⟩⟩
      ⟨1, 1, fun _ _ => ⟨1, 2, 3, 255⟩⟩ 0 0).1
    (by norm_num [maskAlpha, resample, srcOver, clearPix]) (by norm_num)

/-- A 2×1 original whose left pixel is fully transparent with nonzero
color channels and whose right pixel is opaque blue. -/
def oCex : Image :=
  ⟨2, 1, fun x _ => if x = 0 then ⟨7, 7, 7, 0⟩ else ⟨0, 0, 255, 255⟩⟩

/-- A 2×1 mask: left pixel black (preserve), right pixel white (replace). -/
def mCex : Image :=
  ⟨2, 1, fun x _ => if x = 0 then ⟨0, 0, 0, 255⟩ else ⟨255, 255, 255, 255⟩⟩

/-- A 2×1 replacement whose right pixel is fully transparent red. -/
def rCex : Image :=
  ⟨2, 1, fun x _ => if x = 0 then ⟨9, 9, 9, 255⟩ else ⟨255, 0, 0, 0⟩⟩

/-- C1 counterexample: at a pixel whose mask-derived alpha is exactly 0 the
output differs from the original (its invisible color channels are lost),
and at a pixel whose mask-derived alpha is exactly 255 the output differs
from the resampled replacement (a transparent replacement pixel leaves the
original showing through). -/
theorem compositePure_exact_cex :
    maskAlpha mCex oCex.width oCex.height 0 0 = 0 ∧
    (compositePure oCex mCex rCex).pix 0 0 ≠ oCex.pix 0 0 ∧
    maskAlpha mCex oCex.width oCex.height 1 0 = 255 ∧
    (compositePure oCex mCex rCex).pix 1 0 ≠ (resample rCex oCex.width oCex.height).pix 1 0 := by
  refine ⟨?_, ?_, ?_, ?_⟩
  · norm_num [maskAlpha, resample, srcOver, clearPix, mCex, oCex]
  · norm_num [compositePure, maskAlpha, resample, srcOver, dstIn, clearPix,
      oCex, mCex, rCex, RGBA.mk.injEq]
  · norm_num [maskAlpha, resample, srcOver, clearPix, mCex, oCex]
  · norm_num [compositePure, maskAlpha, resample, srcOver, dstIn, clearPix,
      oCex, mCex, rCex, RGBA.mk.injEq]
